import Mathlib

/-!
Verification development for the chatai-gcp backend.

The Python sources under `backend/` are shallowly embedded here:

* `backend/services/encryption_service.py` — `EncryptionService`
  (`validate_key_hash`, `encrypt_payload`, `decrypt_payload`,
  `handle_conversation_data`) over abstract cryptographic primitives
  (`CryptoPrims`: SHA-256, AES-GCM, base64, UTF-8), since those live in
  external libraries (`hashlib`, `cryptography`, `base64`).
* `backend/services/gemini_service.py` — inline-citation insertion,
  title generation with its deterministic fallback, and the
  conversation-history window passed to the generator.
* `backend/routers/chat.py` — the SSE event stream (`create_sse_stream`)
  and the continuation endpoint (`continue_chat`), with the external
  collaborators (Firestore, Gemini) abstracted as an environment record
  describing the outcome of each external call of one request.

Python exceptions are modelled with `Except`; Python falsy tests on
optional strings (`if not key_hash:`) are modelled by `optStrTruthy`.
Bytes are `Fin 256`; byte strings are `List Byte`; character offsets into
text are indices into `List Char`, matching Python `str` slicing.
-/

/-- A byte, as produced by `bytes` values in the Python code. -/
abbrev Byte := Fin 256

/-- The cryptographic primitives used by `encryption_service.py`, which come
from external libraries: `hashlib.sha256(...).digest()`, `AESGCM.encrypt` /
`AESGCM.decrypt` (where `none` models `InvalidTag`), `base64.b64encode` /
`base64.b64decode` (`Except` error = `binascii.Error` message), and
`str.encode('utf-8')` / `bytes.decode('utf-8')` (`Except` error =
`UnicodeDecodeError` message). -/
structure CryptoPrims where
  sha256 : List Byte → List Byte
  aesgcmEncrypt : List Byte → List Byte → List Byte → List Byte
  aesgcmDecrypt : List Byte → List Byte → List Byte → Option (List Byte)
  b64encode : List Byte → String
  b64decode : String → Except String (List Byte)
  utf8Encode : String → List Byte
  utf8Decode : List Byte → Except String String

/-- The exception hierarchy of `encryption_service.py`:
`EncryptionError` and its subclasses `DecryptionError` and
`KeyValidationError`, each carrying its message string. -/
inductive PyError where
  | encryptionError (msg : String)
  | decryptionError (msg : String)
  | keyValidationError (msg : String)
deriving DecidableEq

/-- The message of a Python exception, `str(e)`. -/
def pyErrorMsg : PyError → String
  | .encryptionError m => m
  | .decryptionError m => m
  | .keyValidationError m => m

/-- Configuration state of `EncryptionService.__init__`:
`settings.encryption_enabled` and `settings.aes_key_hash` (which may be
unset, i.e. `None`). -/
structure EncryptionService where
  encryption_enabled : Bool
  expected_key_hash : Option String

/-- Python truthiness of an optional string: `None` and `""` are falsy. -/
def optStrTruthy : Option String → Bool
  | none => false
  | some s => !s.isEmpty

/-- The configured key hash as a plain string (only ever read on paths where
it has already been checked truthy). -/
def expectedKeyStr (svc : EncryptionService) : String :=
  svc.expected_key_hash.getD ""

/-- `EncryptionService.validate_key_hash` (encryption_service.py lines 44-60).
Returns the boolean comparison result, or raises `KeyValidationError` when no
key hash is configured while encryption is enabled. -/
def validate_key_hash (svc : EncryptionService) (key_hash : String) :
    Except PyError Bool :=
  if !svc.encryption_enabled then
    .ok true
  else if !optStrTruthy svc.expected_key_hash then
    .error (.keyValidationError "AES key hash not configured")
  else
    .ok (key_hash == expectedKeyStr svc)

/-- `EncryptionService.decrypt_payload` (encryption_service.py lines 62-109).
Base64-decodes, requires at least 12 bytes (nonce), splits nonce from
ciphertext-with-tag, derives the AES key from the configured key hash and
decrypts.  Every failure inside the `try` block is re-raised as
`DecryptionError` with a `"Decryption failed: "` message (the explicit
too-short `DecryptionError` is itself re-wrapped by the generic
`except Exception` handler). -/
def decrypt_payload (svc : EncryptionService) (crypto : CryptoPrims)
    (encrypted_data key_hash : String) : Except PyError String :=
  if !svc.encryption_enabled then
    .error (.encryptionError "Encryption is not enabled")
  else
    match validate_key_hash svc key_hash with
    | .error e => .error e
    | .ok false => .error (.keyValidationError "Invalid AES key hash")
    | .ok true =>
      match crypto.b64decode encrypted_data with
      | .error m => .error (.decryptionError ("Decryption failed: " ++ m))
      | .ok encrypted_bytes =>
        if encrypted_bytes.length < 12 then
          .error (.decryptionError
            "Decryption failed: Invalid encrypted data: too short")
        else
          let iv := encrypted_bytes.take 12
          let ciphertext_with_tag := encrypted_bytes.drop 12
          let aes_key := crypto.sha256 (crypto.utf8Encode (expectedKeyStr svc))
          match crypto.aesgcmDecrypt aes_key iv ciphertext_with_tag with
          | none =>
            .error (.decryptionError
              "Decryption failed: invalid authentication tag")
          | some plaintext =>
            match crypto.utf8Decode plaintext with
            | .error m => .error (.decryptionError ("Decryption failed: " ++ m))
            | .ok s => .ok s

/-- `EncryptionService.encrypt_payload` (encryption_service.py lines 111-151).
The 12-byte random nonce produced by `secrets.token_bytes(12)` is passed in
as the argument `iv`. -/
def encrypt_payload (svc : EncryptionService) (crypto : CryptoPrims)
    (plaintext key_hash : String) (iv : List Byte) : Except PyError String :=
  if !svc.encryption_enabled then
    .error (.encryptionError "Encryption is not enabled")
  else
    match validate_key_hash svc key_hash with
    | .error e => .error e
    | .ok false => .error (.keyValidationError "Invalid AES key hash")
    | .ok true =>
      let aes_key := crypto.sha256 (crypto.utf8Encode (expectedKeyStr svc))
      let ciphertext_with_tag :=
        crypto.aesgcmEncrypt aes_key iv (crypto.utf8Encode plaintext)
      .ok (crypto.b64encode (iv ++ ciphertext_with_tag))

/-- The shape of one stored message's `content` field as it reaches
`EncryptionService.handle_conversation_data`: either a plain string (legacy
or plaintext storage) or a dict `{'content', 'encrypted', 'key_hash'}`. -/
inductive MsgContent where
  | str (s : String)
  | encDict (content : String) (encrypted : Bool) (key_hash : Option String)
deriving DecidableEq

/-- One stored message, as a dict with `role` and `content` keys. -/
structure PyMessage where
  role : String
  content : MsgContent
deriving DecidableEq

/-- Stored conversation data; `messages` is `none` when the `'messages'` key
is absent. -/
structure ConversationData where
  messages : Option (List PyMessage)
deriving DecidableEq

/-- The decrypt branch of the per-message loop in
`EncryptionService.handle_conversation_data` (encryption_service.py lines
228-244): dict-shaped encrypted content is decrypted and any failure
propagates; plain-string content is tentatively decrypted with
`except DecryptionError: pass` falling back to the string unchanged. -/
def decryptMessageContent (svc : EncryptionService) (crypto : CryptoPrims)
    (key_hash : String) (m : PyMessage) : Except PyError PyMessage :=
  match m.content with
  | .encDict c enc _ =>
    if enc then
      match decrypt_payload svc crypto c key_hash with
      | .ok pt => .ok { m with content := .str pt }
      | .error e => .error e
    else .ok m
  | .str s =>
    if svc.encryption_enabled then
      match decrypt_payload svc crypto s key_hash with
      | .ok pt => .ok { m with content := .str pt }
      | .error (.decryptionError _) => .ok m
      | .error e => .error e
    else .ok m

/-- The encrypt branch of the per-message loop in
`EncryptionService.handle_conversation_data` (encryption_service.py lines
245-255); `iv` is the fresh nonce drawn inside `encrypt_payload`. -/
def encryptMessageContent (svc : EncryptionService) (crypto : CryptoPrims)
    (key_hash : String) (iv : List Byte) (m : PyMessage) :
    Except PyError PyMessage :=
  match m.content with
  | .str s =>
    match encrypt_payload svc crypto s key_hash iv with
    | .ok enc =>
      .ok { m with content := .encDict enc true (some key_hash) }
    | .error e => .error e
  | .encDict .. => .ok m

/-- The message loop of `handle_conversation_data`; `ivf i` is the nonce for
the `i`-th message on the encrypt path. -/
def handleMessages (svc : EncryptionService) (crypto : CryptoPrims)
    (ivf : Nat → List Byte) (key_hash : String) (decrypt : Bool) :
    Nat → List PyMessage → Except PyError (List PyMessage)
  | _, [] => .ok []
  | i, m :: rest =>
    match
      (if decrypt then decryptMessageContent svc crypto key_hash m
       else encryptMessageContent svc crypto key_hash (ivf i) m) with
    | .error e => .error e
    | .ok m' =>
      match handleMessages svc crypto ivf key_hash decrypt (i + 1) rest with
      | .error e => .error e
      | .ok rest' => .ok (m' :: rest')

/-- `EncryptionService.handle_conversation_data`
(encryption_service.py lines 202-261). -/
def handle_conversation_data (svc : EncryptionService) (crypto : CryptoPrims)
    (ivf : Nat → List Byte) (data : ConversationData)
    (key_hash : Option String) (decrypt : Bool) :
    Except PyError ConversationData :=
  if !svc.encryption_enabled then
    .ok data
  else if !optStrTruthy key_hash then
    .error (.encryptionError
      "Key hash required for conversation encryption/decryption")
  else
    match data.messages with
    | none => .ok data
    | some msgs =>
      match handleMessages svc crypto ivf (key_hash.getD "") decrypt 0 msgs with
      | .error e => .error e
      | .ok msgs' => .ok { data with messages := some msgs' }

/-- `models.GroundingSupport` as consumed by
`GeminiService._insert_inline_citations`: character offsets into the final
response text and the 1-based reference indices backing the span. -/
structure GroundingSupport where
  start_index : Nat
  end_index : Nat
  text : String
  reference_indices : List Nat
deriving DecidableEq

/-- The sort key used at gemini_service.py line 269:
`sorted(grounding_supports, key=lambda x: x.start_index, reverse=True)`.
`supportOrder a b` holds when `a` sorts no later than `b`, i.e. descending
start offsets. -/
def supportOrder (a b : GroundingSupport) : Prop :=
  b.start_index ≤ a.start_index

instance : DecidableRel supportOrder := fun a b =>
  Nat.decLe b.start_index a.start_index

instance : IsTotal GroundingSupport supportOrder :=
  ⟨fun a b => Nat.le_total b.start_index a.start_index⟩

instance : IsTrans GroundingSupport supportOrder :=
  ⟨fun _ _ _ hab hbc => Nat.le_trans hbc hab⟩

/-- `''.join([f'[{idx}]' for idx in support.reference_indices])`
(gemini_service.py line 276). -/
def citationMarker (reference_indices : List Nat) : List Char :=
  reference_indices.flatMap (fun idx => '[' :: (toString idx).data ++ [']'])

/-- The body of the insertion loop (gemini_service.py lines 273-282): skip
supports with no reference indices, insert the concatenated marker at the
span's end offset when it is within the current text, otherwise skip. -/
def insertOneCitation (result_text : List Char) (support : GroundingSupport) :
    List Char :=
  if support.reference_indices.isEmpty then result_text
  else if support.end_index ≤ result_text.length then
    result_text.take support.end_index ++
      citationMarker support.reference_indices ++
      result_text.drop support.end_index
  else result_text

/-- `GeminiService._insert_inline_citations` (gemini_service.py lines
256-288): a stable sort by `start_index` descending (Python `sorted` with
`reverse=True` is stable; `List.insertionSort` with this total order is the
same stable descending sort), then the insertion loop. -/
def insert_inline_citations (text : List Char)
    (grounding_supports : List GroundingSupport) : List Char :=
  (List.insertionSort supportOrder grounding_supports).foldl
    insertOneCitation text

/-- Sort key in the spec's words: descending end offsets. -/
def supportOrderEnd (a b : GroundingSupport) : Prop :=
  b.end_index ≤ a.end_index

instance : DecidableRel supportOrderEnd := fun a b =>
  Nat.decLe b.end_index a.end_index

/-- Modelled from the spec: the citation-insertion routine as the spec
describes it, walking the supports "sorted by end offset descending (process
rightmost spans first)" and inserting each marker immediately after the
span's end offset.  Used only to compare the spec's claimed processing order
with the code's actual one. -/
def insert_inline_citations_specOrder (text : List Char)
    (grounding_supports : List GroundingSupport) : List Char :=
  (List.insertionSort supportOrderEnd grounding_supports).foldl
    insertOneCitation text

/-- The whitespace characters recognised by Python `str.split()` on ASCII
text: space, tab, newline, carriage return, vertical tab, form feed. -/
def pyIsSpace (c : Char) : Bool :=
  c == ' ' || c == '\t' || c == '\n' || c == '\r' || c == '\x0b' || c == '\x0c'

/-- Worker for `str.split()`: accumulates the current word (reversed) and
emits maximal runs of non-whitespace characters. -/
def splitWsAux : List Char → List Char → List String
  | [], cur => if cur.isEmpty then [] else [String.mk cur.reverse]
  | c :: cs, cur =>
    if pyIsSpace c then
      if cur.isEmpty then splitWsAux cs []
      else String.mk cur.reverse :: splitWsAux cs []
    else splitWsAux cs (c :: cur)

/-- Python `first_message.split()`: split on whitespace runs, discarding
empty fragments. -/
def pySplitWhitespace (s : String) : List String :=
  splitWsAux s.data []

/-- Strip characters satisfying `p` from both ends of a character list
(Python `str.strip(...)`). -/
def stripEnds (p : Char → Bool) (l : List Char) : List Char :=
  ((l.dropWhile p).reverse.dropWhile p).reverse

/-- Python `str.strip()` (whitespace). -/
def pyStrip (s : String) : String :=
  ⟨stripEnds pyIsSpace s.data⟩

/-- Python `str.strip(c)` for a single strip character. -/
def pyStripChar (c : Char) (s : String) : String :=
  ⟨stripEnds (fun x => x == c) s.data⟩

/-- `GeminiService.generate_title` (gemini_service.py lines 227-254).
`generated` is the outcome of the generator call: `some t` when
`response.text` was produced, `none` when anything in the `try` block
raised.  On success the title is stripped of whitespace and surrounding
quotes and truncated to 50 characters; on failure the fallback is the first
5 whitespace-separated words plus `"..."` when at least 5 words were
taken. -/
def generate_title (generated : Option String) (first_message : String) :
    String :=
  match generated with
  | some t =>
    let title := pyStripChar (Char.ofNat 39) (pyStripChar '"' (pyStrip t))
    if title.length > 50 then ⟨title.data.take 50⟩ else title
  | none =>
    let words := (pySplitWhitespace first_message).take 5
    String.intercalate " " words ++ (if words.length ≥ 5 then "..." else "")

/-- One prior message as handed to the Gemini service:
`{"role": ..., "content": ...}` (chat.py lines 40-43). -/
structure HistMsg where
  role : String
  content : String
deriving DecidableEq

/-- Python `conversation_history[-10:]`: the most recent 10 elements, or the
whole list when it has 10 or fewer. -/
def lastTenSlice {α : Type} (l : List α) : List α :=
  l.drop (l.length - 10)

/-- The `contents` list built by `GeminiService.generate_response_stream`
and `generate_response_with_grounding` (gemini_service.py lines 40-49 and
82-91): the contents of the last 10 history messages (when a non-empty
history was supplied), then the current message. -/
def buildGeminiContents (message : String)
    (conversation_history : List HistMsg) : List String :=
  (if conversation_history.isEmpty then []
   else (lastTenSlice conversation_history).map (fun m => m.content)) ++
  [message]

/-- The JSON object emitted for one `chunk` SSE event (chat.py lines 54-69):
`content` plus the optional `encrypted`, `key_hash` and `error` keys (`none`
models an absent key). -/
structure ChunkData where
  content : String
  encrypted : Option Bool
  key_hash : Option String
  error : Option String
deriving DecidableEq

/-- The SSE events produced by `create_sse_stream`. -/
inductive Event where
  | conversation_start
  | chunk (data : ChunkData)
  | done (conversation_id : String)
  | error (msg : String)
deriving DecidableEq

/-- The generic user-facing message of the terminal `error` event
(chat.py line 95). -/
def streamErrorMsg : String :=
  "An error occurred while generating the response. Please try again."

/-- `Event.done` or `Event.error`: the terminal events of the wire
protocol. -/
def isTerminalEvent : Event → Bool
  | .done _ => true
  | .error _ => true
  | _ => false

/-- `Event.chunk`. -/
def isChunkEvent : Event → Bool
  | .chunk _ => true
  | _ => false

/-- Construction of one chunk event's data (chat.py lines 54-67): when
encryption is enabled and a key hash was provided, encrypt the chunk; if
that raises `EncryptionError` (or a subclass), keep the plaintext dict and
add an `error` field instead of terminating the stream. -/
def buildChunkData (svc : EncryptionService) (crypto : CryptoPrims)
    (key_hash : Option String) (iv : List Byte) (chunk : String) : ChunkData :=
  if svc.encryption_enabled && optStrTruthy key_hash then
    match encrypt_payload svc crypto chunk (key_hash.getD "") iv with
    | .ok enc =>
      { content := enc, encrypted := some true, key_hash := key_hash,
        error := none }
    | .error _ =>
      { content := chunk, encrypted := none, key_hash := none,
        error := some "Encryption failed" }
  else
    { content := chunk, encrypted := none, key_hash := none, error := none }

/-- The outcomes of the external collaborator calls made while serving one
chat request: the Firestore conversation fetch (`Except.error` = the call
raised; `Option` = found or not), the chunks yielded by the Gemini stream
(which never raises: `generate_response_stream` converts its own failures
into a yielded error text), the result of `add_message_to_conversation`,
the Gemini title outcome, and `create_conversation` as a function of the
generated title. -/
structure StreamEnv where
  getConv : Except String (Option (List HistMsg))
  chunks : List String
  addMessage : Except String Unit
  genTitle : Option String
  createConv : String → Except String String

/-- The chunk events of one stream: one `chunk` event per yielded chunk, in
generation order; `ivf i` is the nonce drawn for the `i`-th chunk. -/
def chunkEvents (svc : EncryptionService) (crypto : CryptoPrims)
    (ivf : Nat → List Byte) (key_hash : Option String)
    (chunks : List String) : List Event :=
  chunks.enum.map
    (fun p => Event.chunk (buildChunkData svc crypto key_hash (ivf p.1) p.2))

/-- The persistence tail of `create_sse_stream` (chat.py lines 74-96):
append to the existing conversation or create a new one (with a generated
title), then emit `done` with the conversation id; any exception is caught
by the surrounding handler, which emits the terminal `error` event. -/
def persistEvents (env : StreamEnv) (message : String)
    (conversation_id : Option String) : List Event :=
  if optStrTruthy conversation_id then
    match env.addMessage with
    | .error _ => [Event.error streamErrorMsg]
    | .ok _ => [Event.done (conversation_id.getD "")]
  else
    match env.createConv (generate_title env.genTitle message) with
    | .error _ => [Event.error streamErrorMsg]
    | .ok newId => [Event.done newId]

/-- `create_sse_stream` (chat.py lines 17-96) as the list of SSE events it
yields: for a (truthy) continuation id, first fetch the conversation — a
raising fetch reaches the outer handler and the stream is just the terminal
`error` event; otherwise emit `conversation_start` for a new chat, then the
chunk events, then the persistence tail with its single terminal event. -/
def create_sse_stream (svc : EncryptionService) (crypto : CryptoPrims)
    (ivf : Nat → List Byte) (env : StreamEnv) (message : String)
    (conversation_id : Option String) (key_hash : Option String) :
    List Event :=
  if optStrTruthy conversation_id then
    match env.getConv with
    | .error _ => [Event.error streamErrorMsg]
    | .ok _ =>
      chunkEvents svc crypto ivf key_hash env.chunks ++
        persistEvents env message conversation_id
  else
    Event.conversation_start ::
      (chunkEvents svc crypto ivf key_hash env.chunks ++
        persistEvents env message conversation_id)

/-- The request message as `chat.py` receives it: a plain string or an
`EncryptedContent` object with `content` and `key_hash` fields. -/
inductive ReqMessage where
  | plain (s : String)
  | encObj (content : String) (key_hash : String)
deriving DecidableEq

/-- `ChatRequest` as read by chat.py: `message`, the `encrypted` flag and
the optional `key_hash`. -/
structure ChatReq where
  message : ReqMessage
  encrypted : Bool
  key_hash : Option String
deriving DecidableEq

/-- An HTTP error response (`HTTPException(status_code, detail)`). -/
structure HttpError where
  status : Nat
  detail : String
deriving DecidableEq

/-- The decryption preamble shared by `start_chat` and `continue_chat`
(chat.py lines 117-136 and 180-199): decrypt the inbound message when the
request declares encryption or encryption is enabled server-side;
encryption-family exceptions become HTTP 400 with the exception message. -/
def decryptStage (svc : EncryptionService) (crypto : CryptoPrims)
    (req : ChatReq) : Except HttpError (ReqMessage × Option String) :=
  if req.encrypted || svc.encryption_enabled then
    match req.message with
    | .encObj content mkh =>
      match decrypt_payload svc crypto content mkh with
      | .ok m => .ok (.plain m, some mkh)
      | .error e => .error ⟨400, pyErrorMsg e⟩
    | .plain s =>
      if req.encrypted then
        if !optStrTruthy req.key_hash then
          .error ⟨400, "Key hash required for encrypted messages"⟩
        else
          match decrypt_payload svc crypto s (req.key_hash.getD "") with
          | .ok m => .ok (.plain m, req.key_hash)
          | .error e => .error ⟨400, pyErrorMsg e⟩
      else
        .error ⟨501, "Encryption is required but message is not encrypted"⟩
  else
    .ok (req.message, req.key_hash)

/-- The text a `ReqMessage` contributes downstream once the decryption
preamble has run. -/
def reqMessageText : ReqMessage → String
  | .plain s => s
  | .encObj c _ => c

/-- `continue_chat` (chat.py lines 160-227): run the decryption preamble,
verify that the conversation exists — a raising fetch is HTTP 500, a
missing conversation is HTTP 404 `"Conversation not found"` before any
event is produced — and only then return the SSE stream. -/
def continue_chat (svc : EncryptionService) (crypto : CryptoPrims)
    (ivf : Nat → List Byte) (env : StreamEnv) (req : ChatReq)
    (conversation_id : String) : Except HttpError (List Event) :=
  match decryptStage svc crypto req with
  | .error e => .error e
  | .ok (dm, kh) =>
    match env.getConv with
    | .error _ => .error ⟨500, "Failed to continue chat"⟩
    | .ok none => .error ⟨404, "Conversation not found"⟩
    | .ok (some _) =>
      .ok (create_sse_stream svc crypto ivf env (reqMessageText dm)
        (some conversation_id) kh)

/-- A concrete executable instantiation of the cryptographic primitives,
used to evaluate the service definitions on concrete inputs.  The byte/char
encodings are injective, and the AEAD is the identity cipher, so the
inverse laws assumed by the round-trip theorems hold. -/
def concreteByteChar (b : Byte) : Char :=
  Char.ofNat b.val

/-- Inverse of `concreteByteChar` on encoded bytes. -/
def concreteCharByte (c : Char) : Byte :=
  ⟨c.toNat % 256, Nat.mod_lt _ (by decide)⟩

theorem char_toNat_ofNat_of_lt {n : Nat} (h : n < 55296) :
    (Char.ofNat n).toNat = n := by
  have hv : n.isValidChar := Or.inl h
  rw [Char.ofNat, dif_pos hv]
  rfl

theorem concreteCharByte_byteChar (b : Byte) :
    concreteCharByte (concreteByteChar b) = b := by
  have hb : b.val < 55296 := Nat.lt_trans b.isLt (by decide)
  apply Fin.ext
  simp [concreteCharByte, concreteByteChar, char_toNat_ofNat_of_lt hb,
    Nat.mod_eq_of_lt b.isLt]

/-- Concrete base64: one character per byte. -/
def concreteB64encode (bs : List Byte) : String :=
  ⟨bs.map concreteByteChar⟩

/-- Concrete base64 decoding: always succeeds, one byte per character. -/
def concreteB64decode (s : String) : Except String (List Byte) :=
  .ok (s.data.map concreteCharByte)

theorem concreteB64_roundtrip (bs : List Byte) :
    concreteB64decode (concreteB64encode bs) = .ok bs := by
  simp [concreteB64decode, concreteB64encode, List.map_map,
    Function.comp_def, concreteCharByte_byteChar]

/-- Concrete character-to-bytes encoding: three base-256 digits. -/
def concreteEncChar (c : Char) : List Byte :=
  [⟨c.toNat / 65536 % 256, Nat.mod_lt _ (by decide)⟩,
   ⟨c.toNat / 256 % 256, Nat.mod_lt _ (by decide)⟩,
   ⟨c.toNat % 256, Nat.mod_lt _ (by decide)⟩]

/-- Concrete character-list encoding: each character as three base-256
digits, in order. -/
def concreteUtf8EncodeChars : List Char → List Byte
  | [] => []
  | c :: cs => concreteEncChar c ++ concreteUtf8EncodeChars cs

/-- Concrete UTF-8 stand-in: each character as three base-256 digits. -/
def concreteUtf8Encode (s : String) : List Byte :=
  concreteUtf8EncodeChars s.data

/-- Decode a list of three-digit groups back into characters. -/
def concreteDecCharBytes : List Byte → Except String (List Char)
  | [] => .ok []
  | b1 :: b2 :: b3 :: rest =>
    match concreteDecCharBytes rest with
    | .error m => .error m
    | .ok cs =>
      .ok (Char.ofNat (b1.val * 65536 + b2.val * 256 + b3.val) :: cs)
  | _ => .error "truncated character encoding"

/-- Concrete UTF-8 decoding stand-in. -/
def concreteUtf8Decode (bs : List Byte) : Except String String :=
  match concreteDecCharBytes bs with
  | .error m => .error m
  | .ok cs => .ok ⟨cs⟩

theorem char_toNat_lt (c : Char) : c.toNat < 1114112 := by
  rcases c.valid with h | ⟨_, h⟩
  · exact Nat.lt_trans h (by decide)
  · exact h

theorem concreteDecCharBytes_encodes (l : List Char) :
    concreteDecCharBytes (concreteUtf8EncodeChars l) = .ok l := by
  induction l with
  | nil => rfl
  | cons c l ih =>
    have hc : c.toNat < 1114112 := char_toNat_lt c
    have harith :
        c.toNat / 65536 % 256 * 65536 + c.toNat / 256 % 256 * 256 +
          c.toNat % 256 = c.toNat := by
      omega
    show concreteDecCharBytes
      (concreteEncChar c ++ concreteUtf8EncodeChars l) = _
    simp only [concreteEncChar, List.append_eq, List.cons_append,
      List.nil_append, concreteDecCharBytes, ih]
    rw [harith, Char.ofNat_toNat]

theorem concreteUtf8_roundtrip (s : String) :
    concreteUtf8Decode (concreteUtf8Encode s) = .ok s := by
  simp only [concreteUtf8Decode, concreteUtf8Encode,
    concreteDecCharBytes_encodes]

/-- The concrete primitive bundle: identity AEAD over the injective
encodings above. -/
def concreteCrypto : CryptoPrims where
  sha256 := fun bs => bs
  aesgcmEncrypt := fun _ _ pt => pt
  aesgcmDecrypt := fun _ _ ct => some ct
  b64encode := concreteB64encode
  b64decode := concreteB64decode
  utf8Encode := concreteUtf8Encode
  utf8Decode := concreteUtf8Decode

theorem concreteAead_roundtrip (key iv pt : List Byte) :
    concreteCrypto.aesgcmDecrypt key iv
      (concreteCrypto.aesgcmEncrypt key iv pt) = some pt := rfl

/-- A non-empty optional string is truthy. -/
theorem optStrTruthy_some {s : String} (h : s ≠ "") :
    optStrTruthy (some s) = true := by
  have hne : s.isEmpty = false := by
    rw [Bool.eq_false_iff]
    intro hc
    exact h ((String.isEmpty_iff s).mp hc)
  simp [optStrTruthy, hne]

/-- C4: key validation.  When encryption is disabled server-wide,
`validate_key_hash` succeeds for every key hash; when it is enabled but no
key hash is configured, every attempt raises the
`KeyValidationError "AES key hash not configured"` (the
`KeyNotConfigured`-style error); when enabled with a configured hash, it
succeeds exactly when the supplied hash equals the configured one. -/
theorem validate_key_hash_correct (svc : EncryptionService) (k : String) :
    (svc.encryption_enabled = false → validate_key_hash svc k = .ok true) ∧
    (svc.encryption_enabled = true →
      optStrTruthy svc.expected_key_hash = false →
      validate_key_hash svc k =
        .error (.keyValidationError "AES key hash not configured")) ∧
    (∀ e : String, svc.encryption_enabled = true →
      svc.expected_key_hash = some e → e ≠ "" →
      (validate_key_hash svc k = .ok true ↔ k = e)) := by
  refine ⟨fun h => ?_, fun h1 h2 => ?_, fun e h1 h2 h3 => ?_⟩
  · simp [validate_key_hash, h]
  · simp [validate_key_hash, h1, h2]
  · have ht : optStrTruthy (some e) = true := optStrTruthy_some h3
    simp [validate_key_hash, h1, h2, ht, expectedKeyStr]

/-- Witness for C4 at concrete configurations: disabled service, enabled
service without a configured hash, and enabled service with hash `"k1"`. -/
theorem validate_key_hash_correct_witness :
    validate_key_hash ⟨false, none⟩ "x" = .ok true ∧
    validate_key_hash ⟨true, none⟩ "x" =
      .error (.keyValidationError "AES key hash not configured") ∧
    (validate_key_hash ⟨true, some "k1"⟩ "k1" = .ok true ↔ "k1" = "k1") :=
  ⟨(validate_key_hash_correct ⟨false, none⟩ "x").1 rfl,
   (validate_key_hash_correct ⟨true, none⟩ "x").2.1 rfl rfl,
   (validate_key_hash_correct ⟨true, some "k1"⟩ "k1").2.2 "k1" rfl rfl
     (by decide)⟩

/-- C5: short-payload rejection.  With encryption enabled and a key hash
that validates, any payload whose base64 decoding yields fewer than 12
bytes makes `decrypt_payload` raise the malformed-payload
`DecryptionError`; no plaintext is ever returned for such a payload. -/
theorem decrypt_payload_short_rejected (svc : EncryptionService)
    (crypto : CryptoPrims) (payload k : String) (bs : List Byte)
    (hen : svc.encryption_enabled = true)
    (hval : validate_key_hash svc k = .ok true)
    (hdec : crypto.b64decode payload = .ok bs)
    (hlen : bs.length < 12) :
    decrypt_payload svc crypto payload k =
      .error (.decryptionError
        "Decryption failed: Invalid encrypted data: too short") := by
  simp [decrypt_payload, hen, hval, hdec, hlen]

/-- Witness for C5: the empty payload decodes to zero bytes under the
concrete primitives and is rejected. -/
theorem decrypt_payload_short_rejected_witness :
    decrypt_payload ⟨true, some "k"⟩ concreteCrypto "" "k" =
      .error (.decryptionError
        "Decryption failed: Invalid encrypted data: too short") :=
  decrypt_payload_short_rejected ⟨true, some "k"⟩ concreteCrypto "" "k" []
    rfl (by rfl) rfl (by decide)

/-- C2: cipher round-trip.  With encryption enabled, a configured server
key hash, and a key hash that validates, decrypting the result of
`encrypt_payload` returns the original plaintext, for any primitives whose
base64, AEAD and UTF-8 pairs are mutually inverse and any 12-byte nonce. -/
theorem encrypt_decrypt_roundtrip (svc : EncryptionService)
    (crypto : CryptoPrims) (p k : String) (iv : List Byte)
    (hen : svc.encryption_enabled = true)
    (hconf : optStrTruthy svc.expected_key_hash = true)
    (hval : validate_key_hash svc k = .ok true)
    (hb64 : ∀ bs, crypto.b64decode (crypto.b64encode bs) = .ok bs)
    (haead : ∀ key iv2 pt,
      crypto.aesgcmDecrypt key iv2 (crypto.aesgcmEncrypt key iv2 pt) =
        some pt)
    (hutf8 : ∀ s, crypto.utf8Decode (crypto.utf8Encode s) = .ok s)
    (hiv : iv.length = 12) :
    (encrypt_payload svc crypto p k iv).bind
      (fun c => decrypt_payload svc crypto c k) = .ok p := by
  have henc : encrypt_payload svc crypto p k iv =
      .ok (crypto.b64encode
        (iv ++ crypto.aesgcmEncrypt
          (crypto.sha256 (crypto.utf8Encode (expectedKeyStr svc))) iv
          (crypto.utf8Encode p))) := by
    simp [encrypt_payload, hen, hval]
  rw [henc, Except.bind]
  have hlen : ¬ ((iv ++ crypto.aesgcmEncrypt
      (crypto.sha256 (crypto.utf8Encode (expectedKeyStr svc))) iv
      (crypto.utf8Encode p)).length < 12) := by
    rw [List.length_append, hiv]
    omega
  have htake : (iv ++ crypto.aesgcmEncrypt
      (crypto.sha256 (crypto.utf8Encode (expectedKeyStr svc))) iv
      (crypto.utf8Encode p)).take 12 = iv := by
    rw [← hiv]
    exact List.take_left _ _
  have hdrop : (iv ++ crypto.aesgcmEncrypt
      (crypto.sha256 (crypto.utf8Encode (expectedKeyStr svc))) iv
      (crypto.utf8Encode p)).drop 12 =
      crypto.aesgcmEncrypt
        (crypto.sha256 (crypto.utf8Encode (expectedKeyStr svc))) iv
        (crypto.utf8Encode p) := by
    rw [← hiv]
    exact List.drop_left _ _
  simp [decrypt_payload, hen, hval, hb64, hlen, htake, hdrop, haead, hutf8]
  omega

/-- Witness for C2: round-trip of the plaintext `"hello"` under the
concrete primitives with key hash `"k"` and an all-zero 12-byte nonce. -/
theorem encrypt_decrypt_roundtrip_witness :
    (encrypt_payload ⟨true, some "k"⟩ concreteCrypto "hello" "k"
      (List.replicate 12 0)).bind
      (fun c => decrypt_payload ⟨true, some "k"⟩ concreteCrypto c "k") =
      .ok "hello" :=
  encrypt_decrypt_roundtrip ⟨true, some "k"⟩ concreteCrypto "hello" "k"
    (List.replicate 12 0) rfl (by rfl) (by rfl)
    concreteB64_roundtrip (fun _ _ _ => rfl) concreteUtf8_roundtrip
    (List.length_replicate 12 0)

/-- C7: history truncation.  The history portion of the contents handed to
the generator is exactly `conversation_history[-10:]`: it has
`min (length) 10` elements, it is the whole history when that has at most
10 messages, and it is the suffix left after dropping the oldest
`length - 10` messages first. -/
theorem history_truncation (message : String)
    (conversation_history : List HistMsg) :
    buildGeminiContents message conversation_history =
      (lastTenSlice conversation_history).map (fun m => m.content) ++
        [message] ∧
    (lastTenSlice conversation_history).length =
      min conversation_history.length 10 ∧
    (conversation_history.length ≤ 10 →
      lastTenSlice conversation_history = conversation_history) ∧
    conversation_history.take (conversation_history.length - 10) ++
      lastTenSlice conversation_history = conversation_history := by
  refine ⟨?_, ?_, fun hle => ?_, ?_⟩
  · by_cases h : conversation_history.isEmpty
    · have : conversation_history = [] := List.isEmpty_iff.mp h
      subst this
      simp [buildGeminiContents, lastTenSlice]
    · simp [buildGeminiContents, h]
  · simp only [lastTenSlice, List.length_drop]
    omega
  · have : conversation_history.length - 10 = 0 := by omega
    simp [lastTenSlice, this]
  · exact List.take_append_drop _ _

/-- Witness for C7: a 15-message history yields exactly the most recent
10 messages before the current one. -/
theorem history_truncation_witness :
    buildGeminiContents "m"
      ((List.range 15).map (fun i => HistMsg.mk "user" (toString i))) =
      ["5", "6", "7", "8", "9", "10", "11", "12", "13", "14", "m"] ∧
    lastTenSlice ((List.range 4).map (fun i => HistMsg.mk "user" (toString i)))
      = (List.range 4).map (fun i => HistMsg.mk "user" (toString i)) := by
  constructor
  · have h := (history_truncation "m"
      ((List.range 15).map (fun i => HistMsg.mk "user" (toString i)))).1
    rw [h]
    decide
  · exact (history_truncation "m"
      ((List.range 4).map (fun i => HistMsg.mk "user" (toString i)))).2.2.1
      (by decide)

/-- C8: title fallback.  When the generator's title call fails,
`generate_title` returns the first 5 whitespace-separated words of the
message joined by single spaces, followed by `"..."` exactly when the
message has 5 or more words. -/
theorem generate_title_fallback (first_message : String) :
    generate_title none first_message =
      String.intercalate " " ((pySplitWhitespace first_message).take 5) ++
        (if 5 ≤ (pySplitWhitespace first_message).length then "..."
         else "") := by
  have hlen : ((pySplitWhitespace first_message).take 5).length =
      min 5 (pySplitWhitespace first_message).length :=
    List.length_take 5 _
  have hiff : (5 ≤ ((pySplitWhitespace first_message).take 5).length) =
      (5 ≤ (pySplitWhitespace first_message).length) := by
    rw [hlen]
    by_cases h : 5 ≤ (pySplitWhitespace first_message).length
    · simp [h]
    · simp [h]
  simp only [generate_title, ge_iff_le, hiff]

/-- Concrete evaluation of the title fallback on both sides of the 5-word
boundary. -/
theorem generate_title_fallback_check :
    generate_title none "one two three four five six" =
      "one two three four five..." ∧
    generate_title none "one two three four" = "one two three four" := by
  constructor
  · decide
  · decide

/-- C10: decryption of stored conversation data.  With encryption enabled
and a truthy key hash, a message whose content is a plain string and fails
to decrypt with a `DecryptionError` is passed through unchanged (the
failure is silently swallowed and the content treated as plaintext), while
a dict-shaped encrypted content propagates its decryption failure out of
`handle_conversation_data`. -/
theorem handle_conversation_data_plaintext_fallback
    (svc : EncryptionService) (crypto : CryptoPrims) (ivf : Nat → List Byte)
    (kh : Option String) (r s c msgD : String) (e : PyError)
    (hen : svc.encryption_enabled = true)
    (hkh : optStrTruthy kh = true)
    (hs : decrypt_payload svc crypto s (kh.getD "") =
      .error (.decryptionError msgD))
    (hc : decrypt_payload svc crypto c (kh.getD "") = .error e) :
    decryptMessageContent svc crypto (kh.getD "") ⟨r, .str s⟩ =
      .ok ⟨r, .str s⟩ ∧
    decryptMessageContent svc crypto (kh.getD "") ⟨r, .encDict c true none⟩ =
      .error e ∧
    handle_conversation_data svc crypto ivf ⟨some [⟨r, .str s⟩]⟩ kh true =
      .ok ⟨some [⟨r, .str s⟩]⟩ ∧
    handle_conversation_data svc crypto ivf
      ⟨some [⟨r, .encDict c true none⟩]⟩ kh true = .error e := by
  have h1 : decryptMessageContent svc crypto (kh.getD "") ⟨r, .str s⟩ =
      .ok ⟨r, .str s⟩ := by
    simp [decryptMessageContent, hen, hs]
  have h2 : decryptMessageContent svc crypto (kh.getD "")
      ⟨r, .encDict c true none⟩ = .error e := by
    simp [decryptMessageContent, hc]
  refine ⟨h1, h2, ?_, ?_⟩
  · simp [handle_conversation_data, hen, hkh, handleMessages, h1]
  · simp [handle_conversation_data, hen, hkh, handleMessages, h2]

/-- Witness for C10: under the concrete primitives the empty string fails
to decrypt (too short); as plain-string content it is passed through, as
dict-shaped encrypted content the error propagates. -/
theorem handle_conversation_data_plaintext_fallback_witness :
    decryptMessageContent ⟨true, some "k"⟩ concreteCrypto
      ((some "k").getD "") ⟨"user", .str ""⟩ = .ok ⟨"user", .str ""⟩ ∧
    decryptMessageContent ⟨true, some "k"⟩ concreteCrypto
      ((some "k").getD "") ⟨"user", .encDict "" true none⟩ =
      .error (.decryptionError
        "Decryption failed: Invalid encrypted data: too short") ∧
    handle_conversation_data ⟨true, some "k"⟩ concreteCrypto (fun _ => [])
      ⟨some [⟨"user", .str ""⟩]⟩ (some "k") true =
      .ok ⟨some [⟨"user", .str ""⟩]⟩ ∧
    handle_conversation_data ⟨true, some "k"⟩ concreteCrypto (fun _ => [])
      ⟨some [⟨"user", .encDict "" true none⟩]⟩ (some "k") true =
      .error (.decryptionError
        "Decryption failed: Invalid encrypted data: too short") :=
  handle_conversation_data_plaintext_fallback ⟨true, some "k"⟩
    concreteCrypto (fun _ => []) (some "k") "user" "" ""
    "Decryption failed: Invalid encrypted data: too short"
    (.decryptionError "Decryption failed: Invalid encrypted data: too short")
    rfl (by rfl) (by rfl) (by rfl)

/-- One insertion step only ever inserts characters, so the current text is
a sublist of its result. -/
theorem insertOneCitation_sublist (acc : List Char) (s : GroundingSupport) :
    acc.Sublist (insertOneCitation acc s) := by
  unfold insertOneCitation
  split
  · exact List.Sublist.refl acc
  · split
    · conv_lhs => rw [← List.take_append_drop s.end_index acc]
      exact List.Sublist.append (List.sublist_append_left _ _)
        (List.Sublist.refl _)
    · exact List.Sublist.refl acc

/-- The insertion loop preserves the original text as a sublist. -/
theorem foldl_insertOneCitation_sublist (l : List GroundingSupport)
    (acc : List Char) : acc.Sublist (l.foldl insertOneCitation acc) := by
  induction l generalizing acc with
  | nil => exact List.Sublist.refl acc
  | cons s l ih =>
    exact (insertOneCitation_sublist acc s).trans (ih _)

/-- C1 (amended): `_insert_inline_citations` processes the supports in
descending **start**-offset order (a stable sort on `start_index`,
`reverse=True`), inserting each support's concatenated bracketed-index
marker at the support's end offset *within the current, partially modified
text* when that offset is in range; every character of the original text is
preserved (it is a sublist of the result); a support with an empty
reference-index list or whose end offset exceeds the current text length is
skipped, leaving the text unchanged for the subsequent insertions. -/
theorem insert_inline_citations_behavior (text : List Char)
    (grounding_supports : List GroundingSupport) :
    insert_inline_citations text grounding_supports =
      (List.insertionSort supportOrder grounding_supports).foldl
        insertOneCitation text ∧
    List.Sorted supportOrder
      (List.insertionSort supportOrder grounding_supports) ∧
    (List.insertionSort supportOrder grounding_supports).Perm
      grounding_supports ∧
    text.Sublist (insert_inline_citations text grounding_supports) ∧
    (∀ (acc : List Char) (s : GroundingSupport),
      s.reference_indices ≠ [] → s.end_index ≤ acc.length →
      insertOneCitation acc s =
        acc.take s.end_index ++ citationMarker s.reference_indices ++
          acc.drop s.end_index) ∧
    (∀ (acc : List Char) (s : GroundingSupport),
      s.reference_indices = [] ∨ acc.length < s.end_index →
      insertOneCitation acc s = acc) := by
  refine ⟨rfl, List.sorted_insertionSort supportOrder grounding_supports,
    List.perm_insertionSort supportOrder grounding_supports,
    foldl_insertOneCitation_sublist _ text, ?_, ?_⟩
  · intro acc s h1 h2
    have hE : s.reference_indices.isEmpty = false := by
      rw [Bool.eq_false_iff]
      intro hc
      exact h1 (List.isEmpty_iff.mp hc)
    simp [insertOneCitation, hE, h2]
  · intro acc s h
    rcases h with h | h
    · simp [insertOneCitation, h]
    · unfold insertOneCitation
      split
      · rfl
      · rw [if_neg (Nat.not_le.mpr h)]

/-- Counterexample for C1 as stated: on the nested spans
`(start 0, end 10, refs [1])` and `(start 5, end 8, refs [2])` over the
text `"0123456789"`, the code (descending start offsets) produces
`"01234567[2[1]]89"` — the marker `[1]` is *not* immediately after the
original end offset 10 — while processing in descending end-offset order,
as the spec describes, produces `"01234567[2]89[1]"`. -/
theorem insert_inline_citations_counterexample :
    insert_inline_citations "0123456789".data
      [⟨0, 10, "", [1]⟩, ⟨5, 8, "", [2]⟩] = "01234567[2[1]]89".data ∧
    insert_inline_citations_specOrder "0123456789".data
      [⟨0, 10, "", [1]⟩, ⟨5, 8, "", [2]⟩] = "01234567[2]89[1]".data ∧
    insert_inline_citations "0123456789".data
      [⟨0, 10, "", [1]⟩, ⟨5, 8, "", [2]⟩] ≠
      insert_inline_citations_specOrder "0123456789".data
        [⟨0, 10, "", [1]⟩, ⟨5, 8, "", [2]⟩] :=
  ⟨by decide, by decide, by decide⟩

/-- Witness for the amended C1 at a concrete text and support list. -/
theorem insert_inline_citations_behavior_witness :
    "ab".data.Sublist
      (insert_inline_citations "ab".data [⟨0, 2, "", [1]⟩]) ∧
    insertOneCitation "ab".data ⟨0, 2, "", [1]⟩ =
      "ab".data.take 2 ++ citationMarker [1] ++ "ab".data.drop 2 ∧
    insertOneCitation "ab".data ⟨0, 5, "", [1]⟩ = "ab".data := by
  obtain ⟨-, -, -, h4, h5, h6⟩ :=
    insert_inline_citations_behavior "ab".data [⟨0, 2, "", [1]⟩]
  exact ⟨h4, h5 _ _ (by decide) (by decide), h6 _ _ (Or.inr (by decide))⟩

/-- Every element of `chunkEvents` is a `chunk` event. -/
theorem mem_chunkEvents_isChunk {svc : EncryptionService}
    {crypto : CryptoPrims} {ivf : Nat → List Byte} {kh : Option String}
    {chunks : List String} {e : Event}
    (he : e ∈ chunkEvents svc crypto ivf kh chunks) :
    isChunkEvent e = true := by
  obtain ⟨p, _, rfl⟩ := List.mem_map.mp he
  rfl

/-- `chunkEvents` contains no terminal event. -/
theorem countP_terminal_chunkEvents (svc : EncryptionService)
    (crypto : CryptoPrims) (ivf : Nat → List Byte) (kh : Option String)
    (chunks : List String) :
    (chunkEvents svc crypto ivf kh chunks).countP isTerminalEvent = 0 := by
  rw [List.countP_eq_zero]
  intro e he
  obtain ⟨p, _, rfl⟩ := List.mem_map.mp he
  simp [isTerminalEvent]

/-- `conversation_start` is not terminal. -/
theorem isTerminalEvent_conversation_start :
    isTerminalEvent Event.conversation_start = false := rfl

/-- `error` events are terminal. -/
theorem isTerminalEvent_error (m : String) :
    isTerminalEvent (Event.error m) = true := rfl

/-- The persistence tail is always exactly one terminal event. -/
theorem persistEvents_terminal (env : StreamEnv) (message : String)
    (cid : Option String) :
    ∃ t, persistEvents env message cid = [t] ∧ isTerminalEvent t = true := by
  unfold persistEvents
  by_cases h : optStrTruthy cid = true
  · rw [if_pos h]
    cases env.addMessage with
    | error e => exact ⟨Event.error streamErrorMsg, rfl, rfl⟩
    | ok u => exact ⟨Event.done (cid.getD ""), rfl, rfl⟩
  · rw [if_neg h]
    cases env.createConv (generate_title env.genTitle message) with
    | error e => exact ⟨Event.error streamErrorMsg, rfl, rfl⟩
    | ok newId => exact ⟨Event.done newId, rfl, rfl⟩

/-- C3: event-stream structure.  For every request (with a conversation id
that is either absent or a non-empty string, the only reachable shapes),
the emitted events are: `conversation_start` exactly when no conversation
id was supplied, then chunk events (the full generation-ordered chunk list,
or nothing when the history fetch raised), then exactly one terminal event
— `done` xor `error` — and the whole stream contains exactly one terminal
event. -/
theorem sse_event_order (svc : EncryptionService) (crypto : CryptoPrims)
    (ivf : Nat → List Byte) (env : StreamEnv) (message : String)
    (cid : Option String) (kh : Option String)
    (hcid : cid = none ∨ ∃ s, cid = some s ∧ s ≠ "") :
    ∃ cs t,
      create_sse_stream svc crypto ivf env message cid kh =
        (if cid = none then [Event.conversation_start] else []) ++
          cs ++ [t] ∧
      (cs = chunkEvents svc crypto ivf kh env.chunks ∨ cs = []) ∧
      (∀ e ∈ cs, isChunkEvent e = true) ∧
      isTerminalEvent t = true ∧
      (create_sse_stream svc crypto ivf env message cid kh).countP
        isTerminalEvent = 1 ∧
      (Event.conversation_start ∈
        create_sse_stream svc crypto ivf env message cid kh ↔
        cid = none) := by
  obtain ⟨t, hp, ht⟩ := persistEvents_terminal env message cid
  rcases hcid with rfl | ⟨s, rfl, hs⟩
  · have hstream : create_sse_stream svc crypto ivf env message none kh =
        Event.conversation_start ::
          (chunkEvents svc crypto ivf kh env.chunks ++ [t]) := by
      rw [create_sse_stream]
      simp [optStrTruthy, hp]
    refine ⟨chunkEvents svc crypto ivf kh env.chunks, t, ?_, Or.inl rfl,
      fun e he => mem_chunkEvents_isChunk he, ht, ?_, ?_⟩
    · rw [hstream]
      simp
    · rw [hstream]
      simp [List.countP_cons, List.countP_append,
        countP_terminal_chunkEvents, isTerminalEvent_conversation_start, ht]
    · rw [hstream]
      simp
  · have htr : optStrTruthy (some s) = true := optStrTruthy_some hs
    cases hg : env.getConv with
    | error msg =>
      have hstream : create_sse_stream svc crypto ivf env message (some s)
          kh = [Event.error streamErrorMsg] := by
        rw [create_sse_stream]
        simp [htr, hg]
      refine ⟨[], Event.error streamErrorMsg, ?_, Or.inr rfl,
        fun e he => absurd he (List.not_mem_nil e), rfl, ?_, ?_⟩
      · rw [hstream]
        simp
      · rw [hstream]
        simp [List.countP_cons, isTerminalEvent_error]
      · rw [hstream]
        simp
    | ok convOpt =>
      have hstream : create_sse_stream svc crypto ivf env message (some s)
          kh = chunkEvents svc crypto ivf kh env.chunks ++ [t] := by
        rw [create_sse_stream]
        simp [htr, hg, hp]
      refine ⟨chunkEvents svc crypto ivf kh env.chunks, t, ?_, Or.inl rfl,
        fun e he => mem_chunkEvents_isChunk he, ht, ?_, ?_⟩
      · rw [hstream]
        simp
      · rw [hstream]
        simp [List.countP_append, countP_terminal_chunkEvents,
          List.countP_cons, ht]
      · rw [hstream]
        constructor
        · intro hmem
          rcases List.mem_append.mp hmem with hmem | hmem
          · exact absurd (mem_chunkEvents_isChunk hmem) (by simp [isChunkEvent])
          · rcases List.mem_singleton.mp hmem with rfl
            exact absurd ht (by simp [isTerminalEvent])
        · intro hc
          exact absurd hc (by simp)

/-- Witness for C3: the event-stream structure at a concrete new-chat
request (no conversation id) with two generated chunks. -/
theorem sse_event_order_witness :
    ∃ cs t,
      create_sse_stream ⟨false, none⟩ concreteCrypto (fun _ => [])
        ⟨.ok none, ["a", "b"], .ok (), none, fun _ => .ok "c1"⟩ "hi" none
        none =
        (if (none : Option String) = none then [Event.conversation_start]
         else []) ++ cs ++ [t] ∧
      (cs = chunkEvents ⟨false, none⟩ concreteCrypto (fun _ => []) none
        ["a", "b"] ∨ cs = []) ∧
      (∀ e ∈ cs, isChunkEvent e = true) ∧
      isTerminalEvent t = true ∧
      (create_sse_stream ⟨false, none⟩ concreteCrypto (fun _ => [])
        ⟨.ok none, ["a", "b"], .ok (), none, fun _ => .ok "c1"⟩ "hi" none
        none).countP isTerminalEvent = 1 ∧
      (Event.conversation_start ∈
        create_sse_stream ⟨false, none⟩ concreteCrypto (fun _ => [])
          ⟨.ok none, ["a", "b"], .ok (), none, fun _ => .ok "c1"⟩ "hi" none
          none ↔ (none : Option String) = none) :=
  sse_event_order ⟨false, none⟩ concreteCrypto (fun _ => [])
    ⟨.ok none, ["a", "b"], .ok (), none, fun _ => .ok "c1"⟩ "hi" none none
    (Or.inl rfl)

/-- C9: a chunk whose encryption fails does not kill the stream.  With
encryption enabled and a truthy key hash, if encrypting a chunk raises an
`EncryptionError`-family exception (for every nonce), its chunk event is
still emitted carrying the original plaintext content with an added
`error: "Encryption failed"` field and no `encrypted` flag, and the stream
still consists of all chunk events in order followed by one terminal
event. -/
theorem chunk_encryption_failure_nonfatal (svc : EncryptionService)
    (crypto : CryptoPrims) (ivf : Nat → List Byte) (env : StreamEnv)
    (message : String) (kh : Option String) (c : String) (e : PyError)
    (hen : svc.encryption_enabled = true)
    (hkh : optStrTruthy kh = true)
    (henc : ∀ iv, encrypt_payload svc crypto c (kh.getD "") iv = .error e)
    (hmem : c ∈ env.chunks) :
    (∀ iv, buildChunkData svc crypto kh iv c =
      { content := c, encrypted := none, key_hash := none,
        error := some "Encryption failed" }) ∧
    Event.chunk
      { content := c, encrypted := none, key_hash := none,
        error := some "Encryption failed" } ∈
      create_sse_stream svc crypto ivf env message none kh ∧
    ∃ t, isTerminalEvent t = true ∧
      create_sse_stream svc crypto ivf env message none kh =
        Event.conversation_start ::
          (chunkEvents svc crypto ivf kh env.chunks ++ [t]) := by
  have hbuild : ∀ iv, buildChunkData svc crypto kh iv c =
      { content := c, encrypted := none, key_hash := none,
        error := some "Encryption failed" } := by
    intro iv
    simp [buildChunkData, hen, hkh, henc]
  obtain ⟨t, hp, ht⟩ := persistEvents_terminal env message none
  have hstream : create_sse_stream svc crypto ivf env message none kh =
      Event.conversation_start ::
        (chunkEvents svc crypto ivf kh env.chunks ++ [t]) := by
    rw [create_sse_stream]
    simp [optStrTruthy, hp]
  refine ⟨hbuild, ?_, t, ht, hstream⟩
  obtain ⟨i, hi⟩ := List.mem_iff_getElem?.mp hmem
  have henum : (i, c) ∈ env.chunks.enum :=
    List.mk_mem_enum_iff_getElem?.mpr hi
  have hchunk : Event.chunk
      { content := c, encrypted := none, key_hash := none,
        error := some "Encryption failed" } ∈
      chunkEvents svc crypto ivf kh env.chunks := by
    refine List.mem_map.mpr ⟨(i, c), henum, ?_⟩
    rw [hbuild (ivf i)]
  rw [hstream]
  exact List.mem_cons_of_mem _ (List.mem_append_left _ hchunk)

/-- Witness for C9: with the server key `"kk"` configured and a client key
hash `"bad"`, chunk encryption raises `KeyValidationError`; the chunk
event for `"a"` still appears with plaintext content and the error field,
and the stream keeps its full shape. -/
theorem chunk_encryption_failure_nonfatal_witness :
    (∀ iv, buildChunkData ⟨true, some "kk"⟩ concreteCrypto (some "bad") iv
      "a" =
      { content := "a", encrypted := none, key_hash := none,
        error := some "Encryption failed" }) ∧
    Event.chunk
      { content := "a", encrypted := none, key_hash := none,
        error := some "Encryption failed" } ∈
      create_sse_stream ⟨true, some "kk"⟩ concreteCrypto (fun _ => [])
        ⟨.ok none, ["a", "b"], .ok (), none, fun _ => .ok "c1"⟩ "hi" none
        (some "bad") ∧
    ∃ t, isTerminalEvent t = true ∧
      create_sse_stream ⟨true, some "kk"⟩ concreteCrypto (fun _ => [])
        ⟨.ok none, ["a", "b"], .ok (), none, fun _ => .ok "c1"⟩ "hi" none
        (some "bad") =
        Event.conversation_start ::
          (chunkEvents ⟨true, some "kk"⟩ concreteCrypto (fun _ => [])
            (some "bad") ["a", "b"] ++ [t]) :=
  chunk_encryption_failure_nonfatal ⟨true, some "kk"⟩ concreteCrypto
    (fun _ => []) ⟨.ok none, ["a", "b"], .ok (), none, fun _ => .ok "c1"⟩
    "hi" (some "bad") "a" (.keyValidationError "Invalid AES key hash")
    rfl (by rfl) (fun _ => rfl) (by decide)

/-- C6: unknown conversation id.  When the decryption preamble succeeds and
the store returns no conversation for the requested id, `continue_chat`
fails with HTTP 404 `"Conversation not found"` — an error response, so no
stream (and in particular no chunk event) is ever produced, and the request
is not treated as a new chat. -/
theorem continue_chat_unknown_conversation (svc : EncryptionService)
    (crypto : CryptoPrims) (ivf : Nat → List Byte) (env : StreamEnv)
    (req : ChatReq) (conversation_id : String) (dm : ReqMessage)
    (kh : Option String)
    (hdec : decryptStage svc crypto req = .ok (dm, kh))
    (hconv : env.getConv = .ok none) :
    continue_chat svc crypto ivf env req conversation_id =
      .error ⟨404, "Conversation not found"⟩ := by
  simp [continue_chat, hdec, hconv]

/-- Witness for C6: a plain unencrypted request against a disabled-encryption
service and a store that reports the conversation missing. -/
theorem continue_chat_unknown_conversation_witness :
    continue_chat ⟨false, none⟩ concreteCrypto (fun _ => [])
      ⟨.ok none, [], .ok (), none, fun _ => .ok "x"⟩
      ⟨.plain "hi", false, none⟩ "missing-id" =
      .error ⟨404, "Conversation not found"⟩ :=
  continue_chat_unknown_conversation ⟨false, none⟩ concreteCrypto
    (fun _ => []) ⟨.ok none, [], .ok (), none, fun _ => .ok "x"⟩
    ⟨.plain "hi", false, none⟩ "missing-id" (.plain "hi") none rfl rfl
